import Mathlib

/-!
# Verification of the FIFO process-scheduling simulator

Shallow embedding of the scheduling core of the repository
(`src/modules/simulador/SimuladorPage.tsx`, record shape from
`src/modules/simulador/ProcessFrom.tsx`), together with theorems that settle
the specification claims about it.

Modelling conventions:

* `pid` is a numeric digit string in the source (`generatePid` produces
  `String(n)` for a natural number, with a numeric-timestamp fallback); we
  embed it as the natural number it denotes.  `compareByPid` compares
  `Number(a.pid) - Number(b.pid)` on such pids, i.e. numerically.
* JavaScript numbers holding counters are embedded as `Nat` where the source
  can only ever store naturals (`tiempo_total`, `quantum`, `tiempo_cpu`,
  `iteracion`, `tiempo_espera`, clock values) and as `Int` where a claim
  quantifies over possibly out-of-range states (`tiempo_restante`,
  `interactividad`, `progreso`).
* Optional / nullable fields of the TypeScript interface (`created_at`,
  `t_inicio`, `t_fin`, `tiempo_espera`, `resident`, and the field
  `interactividad_inicial` that the page adds dynamically) are `Option`s;
  `x ?? d` becomes `x.getD d`.  For fields the interface declares as plain
  `number`, guards such as `typeof x === "number" ? x : d` and `x ?? d` are
  identities and are noted where they occur.
* The interface declares `interactividad` as a string union, but every use in
  `SimuladorPage.tsx` (aging, suspension, the manual suspend/resume calls) is
  numeric; we embed the numeric view the engine actually computes with.
* In-place mutation of the record aliased by `proc` is rendered as building
  the updated record and writing it back at its index (`List.set`), which is
  what the mutation observably does to the array.
-/

inductive Estado where
  | listo
  | ejecutando
  | suspendido
  | terminado
  | inactivo
deriving DecidableEq, Repr

/-- The process record (`Process` interface of `ProcessFrom.tsx`, plus the
`interactividad_inicial` field that `SimuladorPage.tsx` stores on records). -/
structure Process where
  pid : Nat
  nombre : String
  prioridad : Nat
  tiempo_total : Nat
  tiempo_restante : Int
  quantum : Nat
  iteracion : Nat
  estado : Estado
  progreso : Int
  tiempo_cpu : Nat
  interactividad : Int
  interactividad_inicial : Option Int
  resident : Option Bool
  created_at : Option Nat
  t_inicio : Option Nat
  t_fin : Option Nat
  tiempo_espera : Option Nat
deriving DecidableEq, Repr

/-- `Math.round (num / den)` for integers with `den > 0`: JavaScript rounds
half toward `+∞`, so `Math.round x = ⌊x + 1/2⌋`, and
`⌊num/den + 1/2⌋ = ⌊(2*num + den) / (2*den)⌋`. -/
def jsRound (num den : Int) : Int :=
  Int.fdiv (2 * num + den) (2 * den)

/-- The derived clock `tiempoActual`: `copia.reduce((max, p) => ...)` over
`(p.iteracion ?? 0) + (p.tiempo_espera ?? 0)` starting from `0`. -/
def tiempoActualDe (copia : List Process) : Nat :=
  copia.foldl (fun m p => max m (p.iteracion + p.tiempo_espera.getD 0)) 0

/-- PASO 1 of `simularPasoQuantum`: every suspended record with
`interactividad > 0` has it decremented by one. -/
def paso1 (copia : List Process) : List Process :=
  copia.map fun p =>
    if p.estado = Estado.suspendido ∧ 0 < p.interactividad then
      { p with interactividad := p.interactividad - 1 }
    else p

/-- The promotion condition of PASO 1's second half:
`p.estado === "suspendido" && p.interactividad <= 0`. -/
def esPromovible (p : Process) : Prop :=
  p.estado = Estado.suspendido ∧ p.interactividad ≤ 0

instance (p : Process) : Decidable (esPromovible p) := by
  unfold esPromovible; infer_instance

/-- `copia.map((p, i) => ({p, i})).filter(...).map(({i}) => i).sort((a, b) => b - a)`:
the indices of the promotable records, in descending order.  Filtering the
enumeration yields the indices in strictly ascending order, so the descending
sort is exactly the reversal. -/
def toReadyIndices (copia : List Process) : List Nat :=
  ((copia.enum.filter fun pi => decide (esPromovible pi.2)).map Prod.fst).reverse

/-- One iteration of the `toReadyIndices.forEach` body: splice the record out
at index `i`, set it to `listo`, and push it onto the `movedProcesses`
accumulator.  (In the source every index is in range; the out-of-range guard
only makes the function total.) -/
def spliceStep (st : List Process × List Process) (i : Nat) :
    List Process × List Process :=
  if h : i < st.1.length then
    (st.1.eraseIdx i, st.2 ++ [{ st.1[i] with estado := Estado.listo }])
  else st

/-- Second half of PASO 1: remove all promotable records (splicing at
descending indices) and push them, set to `listo`, at the tail. -/
def paso2 (copia : List Process) : List Process :=
  let res := (toReadyIndices copia).foldl spliceStep (copia, [])
  res.1 ++ res.2

/-- The dispatch update of PASO 3 (and of PASO 8, with `tiempoFinal`):
`{...p, estado: "ejecutando", tiempo_cpu: 0, t_inicio: p.t_inicio ?? t}`. -/
def despachar (t : Nat) (p : Process) : Process :=
  { p with estado := Estado.ejecutando, tiempo_cpu := 0,
           t_inicio := some (p.t_inicio.getD t) }

/-- Write the dispatch update at index `j` (always in range at call sites). -/
def despacharEn (copia : List Process) (j : Nat) (t : Nat) : List Process :=
  match copia[j]? with
  | none => copia
  | some pj => copia.set j (despachar t pj)

/-- PASO 2 / PASO 3: keep the running record if there is one, otherwise
dispatch the first ready record; `none` when neither exists. -/
def seleccion (copia : List Process) (tiempoActual : Nat) :
    List Process × Option Nat :=
  match copia.findIdx? (fun p => decide (p.estado = Estado.ejecutando)) with
  | some i => (copia, some i)
  | none =>
    match copia.findIdx? (fun p => decide (p.estado = Estado.listo)) with
    | none => (copia, none)
    | some i => (despacharEn copia i tiempoActual, some i)

/-- PASO 4: `tiempo_cpu += 1`, `tiempo_restante = max(0, r - 1)`, recompute
`progreso` when `tiempo_total > 0`.  The guards
`typeof proc.tiempo_restante === "number"` and
`typeof proc.tiempo_total === "number"` are identities in the typed model. -/
def ejecutar (p : Process) : Process :=
  let r : Int := max 0 (p.tiempo_restante - 1)
  { p with
      tiempo_cpu := p.tiempo_cpu + 1,
      tiempo_restante := r,
      progreso :=
        if 0 < p.tiempo_total then
          jsRound (100 * ((p.tiempo_total : Int) - r)) (p.tiempo_total : Int)
        else p.progreso }

/-- PASO 5: every record other than the active one that is `listo` or
`suspendido` accumulates one unit of `tiempo_espera`. -/
def paso5 (copia : List Process) (execIdx : Nat) : List Process :=
  copia.mapIdx fun idx p =>
    if idx ≠ execIdx ∧ (p.estado = Estado.listo ∨ p.estado = Estado.suspendido) then
      { p with tiempo_espera := some (p.tiempo_espera.getD 0 + 1) }
    else p

/-- PASO 6's update: `estado = "terminado"`, `t_fin = t_fin ?? tiempoFinal`,
`tiempo_cpu = 0`, `resident = false`, `iteracion += 1`. -/
def terminar (tiempoFinal : Nat) (p : Process) : Process :=
  { p with estado := Estado.terminado,
           t_fin := some (p.t_fin.getD tiempoFinal),
           tiempo_cpu := 0,
           resident := some false,
           iteracion := p.iteracion + 1 }

/-- PASO 7's slice length: `Math.ceil(total / (quantum || 1))`. -/
def sliceTimeDe (p : Process) : Nat :=
  let rotations := if p.quantum = 0 then 1 else p.quantum
  (p.tiempo_total + rotations - 1) / rotations

/-- PASO 7's update: `estado = "suspendido"`, `tiempo_cpu = 0`,
`interactividad = interactividad_inicial ?? 0`, `iteracion += 1`. -/
def suspenderPorQuantum (p : Process) : Process :=
  { p with estado := Estado.suspendido,
           tiempo_cpu := 0,
           interactividad := p.interactividad_inicial.getD 0,
           iteracion := p.iteracion + 1 }

/-- PASO 8: after a termination or suspension, dispatch the first ready
record (if any) with `t_inicio ?? tiempoFinal`. -/
def paso8 (copia : List Process) (tiempoFinal : Nat) : List Process :=
  match copia.findIdx? (fun p => decide (p.estado = Estado.listo)) with
  | none => copia
  | some j => despacharEn copia j tiempoFinal

/-- PASOS 2–8 of `simularPasoQuantum`, on the queue produced by the aging and
promotion phases. -/
def pasos3a8 (copia0 : List Process) (tiempoActual : Nat) : List Process :=
  match seleccion copia0 tiempoActual with
  | (copia, none) => copia
  | (copia, some execIdx) =>
    match copia[execIdx]? with
    | none => copia
    | some proc0 =>
      let proc := ejecutar proc0
      let copia4 := copia.set execIdx proc
      let copia5 := paso5 copia4 execIdx
      let tiempoFinal := tiempoActual + 1
      if proc.tiempo_restante ≤ 0 then
        paso8 (copia5.set execIdx (terminar tiempoFinal proc)) tiempoFinal
      else if sliceTimeDe proc ≤ proc.tiempo_cpu then
        paso8 (copia5.eraseIdx execIdx ++ [suspenderPorQuantum proc]) tiempoFinal
      else copia5

/-- One tick of the engine (`simularPasoQuantum`): empty queues are returned
unchanged; `tiempoActual` is computed over the incoming queue before any
mutation. -/
def simularPasoQuantum (prev : List Process) : List Process :=
  if prev.isEmpty then prev
  else pasos3a8 (paso2 (paso1 prev)) (tiempoActualDe prev)

/-- The record `crearProceso` actually inserts: `bcp` with the defaulting
spread applied.  For fields the interface types as plain numbers
(`tiempo_restante`, `tiempo_cpu`, `iteracion`, `progreso`, `estado`,
`interactividad`) the `??` / `typeof` defaults are identities. -/
def normalizarBCP (bcp : Process) : Process :=
  { bcp with
      created_at := some (bcp.created_at.getD 0),
      t_inicio := bcp.t_inicio,
      t_fin := bcp.t_fin,
      tiempo_espera := some (bcp.tiempo_espera.getD 0),
      interactividad_inicial := some (bcp.interactividad_inicial.getD bcp.interactividad),
      resident := some (bcp.resident.getD true) }

/-- `crearProceso`: reject (queue unchanged) when some record already carries
the new record's pid, otherwise append the normalized record at the tail. -/
def crearProceso (bcp : Process) (prev : List Process) : List Process :=
  if prev.any (fun p => decide (p.pid = bcp.pid)) then prev
  else prev ++ [normalizarBCP bcp]

/-- `Partial<Process>`: each field optionally overridden. -/
structure Cambios where
  pid : Option Nat := none
  nombre : Option String := none
  prioridad : Option Nat := none
  tiempo_total : Option Nat := none
  tiempo_restante : Option Int := none
  quantum : Option Nat := none
  iteracion : Option Nat := none
  estado : Option Estado := none
  progreso : Option Int := none
  tiempo_cpu : Option Nat := none
  interactividad : Option Int := none
  interactividad_inicial : Option (Option Int) := none
  resident : Option (Option Bool) := none
  created_at : Option (Option Nat) := none
  t_inicio : Option (Option Nat) := none
  t_fin : Option (Option Nat) := none
  tiempo_espera : Option (Option Nat) := none
deriving DecidableEq, Repr

/-- The spread `{ ...prevP, ...cambios }`. -/
def aplicarCambios (p : Process) (c : Cambios) : Process :=
  { pid := c.pid.getD p.pid,
    nombre := c.nombre.getD p.nombre,
    prioridad := c.prioridad.getD p.prioridad,
    tiempo_total := c.tiempo_total.getD p.tiempo_total,
    tiempo_restante := c.tiempo_restante.getD p.tiempo_restante,
    quantum := c.quantum.getD p.quantum,
    iteracion := c.iteracion.getD p.iteracion,
    estado := c.estado.getD p.estado,
    progreso := c.progreso.getD p.progreso,
    tiempo_cpu := c.tiempo_cpu.getD p.tiempo_cpu,
    interactividad := c.interactividad.getD p.interactividad,
    interactividad_inicial := c.interactividad_inicial.getD p.interactividad_inicial,
    resident := c.resident.getD p.resident,
    created_at := c.created_at.getD p.created_at,
    t_inicio := c.t_inicio.getD p.t_inicio,
    t_fin := c.t_fin.getD p.t_fin,
    tiempo_espera := c.tiempo_espera.getD p.tiempo_espera }

/-- `actualizarProceso(pid, cambios)` as a transformation of the queue. -/
def actualizarProceso (pid : Nat) (cambios : Cambios) (prev : List Process) :
    List Process :=
  match prev.findIdx? (fun p => decide (p.pid = pid)) with
  | none => prev
  | some idx =>
    match prev[idx]? with
    | none => prev
    | some prevP =>
      let updated := aplicarCambios prevP cambios
      if cambios.estado = some Estado.ejecutando then
        let tiempoActual := tiempoActualDe prev
        prev.map fun p =>
          if p.pid = pid then
            { updated with estado := Estado.ejecutando,
                           t_inicio := some (p.t_inicio.getD tiempoActual) }
          else if p.estado = Estado.ejecutando then
            { p with estado := Estado.listo }
          else p
      else if cambios.estado = some Estado.listo ∧ prevP.estado ≠ Estado.listo then
        (prev.filter fun p => !decide (p.pid = pid)) ++
          [{ updated with estado := Estado.listo }]
      else if cambios.estado = some Estado.suspendido then
        (prev.filter fun p => !decide (p.pid = pid)) ++
          [{ updated with estado := Estado.suspendido,
                          interactividad :=
                            prevP.interactividad_inicial.getD prevP.interactividad }]
      else
        prev.set idx updated

/-- `compareByPid` on the simulator's numeric pids: `Number(a.pid) - Number(b.pid)`. -/
def compareByPid (a b : Process) : Int :=
  (a.pid : Int) - (b.pid : Int)

/-- Stable insertion used to model `Array.prototype.sort(compareByPid)`
(required stable by the ECMAScript specification). -/
def insertByPid (x : Process) : List Process → List Process
  | [] => [x]
  | y :: ys => if compareByPid x y ≤ 0 then x :: y :: ys else y :: insertByPid x ys

/-- `[...prevList].sort(compareByPid)`. -/
def sortByPid : List Process → List Process
  | [] => []
  | x :: xs => insertByPid x (sortByPid xs)

/-- The `setProcesos` transform performed by `handleToggleRunning` when
toggling to running: if a record is already running, or none is ready, the
list is unchanged; otherwise the list is sorted by ascending pid and the
first ready record of the sorted list is dispatched with `t_inicio ?? 0`. -/
def iniciarProcesos (prevList : List Process) : List Process :=
  if prevList.any (fun p => decide (p.estado = Estado.ejecutando)) then prevList
  else if (prevList.filter fun p => decide (p.estado = Estado.listo)).isEmpty then
    prevList
  else
    let sorted := sortByPid prevList
    match sorted.findIdx? (fun p => decide (p.estado = Estado.listo)) with
    | none => sorted
    | some i =>
      sorted.mapIdx fun idx p =>
        if idx = i then
          { p with estado := Estado.ejecutando, t_inicio := some (p.t_inicio.getD 0) }
        else p

/-- The `setProcesos` transform performed by `handleToggleRunning` when
toggling to stopped: the branch `if (next)` is not taken, no `setProcesos`
runs, so the process list is unchanged (only the interval stops firing). -/
def detenerProcesos (prevList : List Process) : List Process :=
  prevList

/-- `handleReiniciar`: rebuild the record with creation-time counters and
re-insert it through `crearProceso`. -/
def handleReiniciar (p : Process) (prev : List Process) : List Process :=
  crearProceso
    { p with estado := Estado.listo,
             tiempo_cpu := 0,
             tiempo_restante := (p.tiempo_total : Int),
             progreso := 0,
             iteracion := 0,
             t_inicio := none,
             t_fin := none,
             tiempo_espera := some 0,
             interactividad := p.interactividad_inicial.getD p.interactividad,
             resident := some true }
    prev

/-- The per-record data C10 asserts a tick can never change:
pid, name, total time and quantum. -/
def claveFija (p : Process) : Nat × String × Nat × Nat :=
  (p.pid, p.nombre, p.tiempo_total, p.quantum)

/-- Number of records currently in state `ejecutando`. -/
def countExec (l : List Process) : Nat :=
  l.countP fun p => decide (p.estado = Estado.ejecutando)

/-- The promotion update applied by the `forEach` body: `proc.estado = "listo"`. -/
def aListo (p : Process) : Process :=
  { p with estado := Estado.listo }

/-- Ascending list of the indices at which `q` holds (used to characterize
`toReadyIndices`, which is its reversal). -/
def idxsOf (q : Process → Bool) : List Process → List Nat
  | [] => []
  | x :: l => (if q x then [0] else []) ++ (idxsOf q l).map (· + 1)

/-! ## Concrete scenario records used by the testable properties -/

/-- A freshly created record with every defaulted field at its creation
value, used as the base of the concrete scenarios. -/
def procBase : Process :=
  { pid := 0, nombre := "", prioridad := 1, tiempo_total := 1,
    tiempo_restante := 1, quantum := 1, iteracion := 0,
    estado := Estado.listo, progreso := 0, tiempo_cpu := 0,
    interactividad := 0, interactividad_inicial := some 0,
    resident := some true, created_at := some 0, t_inicio := none,
    t_fin := none, tiempo_espera := some 0 }

/-- A long-running record currently executing (keeps the tick busy while
suspended peers age). -/
def sE9 : Process :=
  { procBase with pid := 9, estado := Estado.ejecutando,
                  tiempo_total := 100, tiempo_restante := 100 }

/-- Suspended record, aging counter 1, queued before `sS2`. -/
def sS1 : Process :=
  { procBase with pid := 1, estado := Estado.suspendido,
                  tiempo_total := 5, tiempo_restante := 5, interactividad := 1 }

/-- Suspended record, aging counter 1, queued after `sS1`. -/
def sS2 : Process := { sS1 with pid := 2 }

/-- Queue in which `sS1` and `sS2` are promoted in the same tick. -/
def qPromReversa : List Process := [sE9, sS1, sS2]

/-- Suspended record with aging counter 4 (the aging round-trip scenario). -/
def sS7 : Process :=
  { procBase with pid := 7, estado := Estado.suspendido,
                  tiempo_total := 5, tiempo_restante := 5, interactividad := 4 }

/-- Queue for the 4-tick aging round trip. -/
def qEnvejecimiento : List Process := [sE9, sS7]

/-- Ready record with `tiempo_total = 3`, `quantum = 1` (slice 3). -/
def pTres : Process :=
  { procBase with pid := 1, tiempo_total := 3, tiempo_restante := 3 }

/-- Long ready record that waits behind `pTres`, keeping the derived clock
advancing. -/
def pEspera : Process :=
  { procBase with pid := 2, tiempo_total := 100, tiempo_restante := 100 }

/-- Termination scenario with a waiting companion. -/
def qTerminacionDuo : List Process := [pTres, pEspera]

/-- Termination scenario with the 3-unit process alone. -/
def qTerminacionSolo : List Process := [pTres]

/-- `qTerminacionDuo` after two ticks (the state in which `pTres` is about to
terminate). -/
def qd3 : List Process := simularPasoQuantum (simularPasoQuantum qTerminacionDuo)

/-- Ready record with `tiempo_total = 10`, `quantum = 2` (slice 5). -/
def pRodaja : Process :=
  { procBase with pid := 1, tiempo_total := 10, tiempo_restante := 10,
                  quantum := 2 }

/-- Slice-exhaustion scenario queue. -/
def qRodaja : List Process := [pRodaja]

/-- `qRodaja` after four ticks (about to hit its slice limit). -/
def q4R : List Process :=
  simularPasoQuantum (simularPasoQuantum (simularPasoQuantum
    (simularPasoQuantum qRodaja)))

/-- An inactive record (created while the simulation was stopped). -/
def pInactivo : Process :=
  { procBase with pid := 1, estado := Estado.inactivo,
                  tiempo_total := 3, tiempo_restante := 3 }

/-- A plain ready record. -/
def pListo2 : Process :=
  { procBase with pid := 2, tiempo_total := 3, tiempo_restante := 3 }

/-- Queue holding an inactive and a ready record. -/
def qInactivoListo : List Process := [pInactivo, pListo2]

/-- Queue holding a single ready record. -/
def qSoloListo : List Process := [pListo2]

/-- Process A of the FIFO fairness scenario: pid 1, total 4, quantum 4. -/
def pA : Process :=
  { procBase with pid := 1, tiempo_total := 4, tiempo_restante := 4,
                  quantum := 4 }

/-- Process B of the FIFO fairness scenario: pid 2, total 4, quantum 4. -/
def pB : Process := { pA with pid := 2 }

/-- The FIFO fairness queue, deliberately holding B before A so that queue
order and pid order disagree. -/
def qFIFO : List Process := [pB, pA]

/-- A record whose pid collides with nothing in `qFIFO`. -/
def pFresco : Process :=
  { procBase with pid := 3, tiempo_total := 2, tiempo_restante := 2 }

/-- A terminated record. -/
def pTerminado : Process :=
  { procBase with pid := 1, estado := Estado.terminado, tiempo_restante := 0,
                  t_fin := some 1, resident := some false }

/-- A queue in which every record is terminated. -/
def qTerminados : List Process := [pTerminado, { pTerminado with pid := 2 }]

/-! ## Generic list helper lemmas -/

theorem list_set_self {α : Type} (l : List α) (i : Nat) (h : i < l.length) :
    l.set i l[i] = l := by
  induction l generalizing i with
  | nil => rfl
  | cons x xs ih =>
    cases i with
    | zero => rfl
    | succ n =>
      have h' : n < xs.length := by simpa using h
      simp only [List.getElem_cons_succ, List.set_cons_succ]
      rw [ih n h']

theorem perm_getElem_cons_eraseIdx {α : Type} (l : List α) (i : Nat)
    (h : i < l.length) : l.Perm (l[i] :: l.eraseIdx i) := by
  induction l generalizing i with
  | nil => simp at h
  | cons x xs ih =>
    cases i with
    | zero => simp
    | succ n =>
      have h' : n < xs.length := by simpa using h
      simp only [List.getElem_cons_succ, List.eraseIdx_cons_succ]
      exact ((ih n h').cons x).trans (List.Perm.swap _ _ _)

theorem countP_set_of_agree {α : Type} (p : α → Bool) (l : List α) (i : Nat)
    (a : α) (h : i < l.length) (hag : p a = p l[i]) :
    List.countP p (l.set i a) = List.countP p l := by
  rw [List.countP_set p l i a h, hag]
  have hle : (if p l[i] = true then 1 else 0) ≤ List.countP p l := by
    by_cases hp : p l[i] = true
    · simpa [hp] using List.countP_pos.mpr ⟨l[i], List.getElem_mem h, hp⟩
    · simp [hp]
  omega

theorem countP_set_true_false {α : Type} (p : α → Bool) (l : List α) (i : Nat)
    (a : α) (h : i < l.length) (h1 : p l[i] = true) (h2 : p a = false) :
    List.countP p (l.set i a) + 1 = List.countP p l := by
  have hpos : 0 < List.countP p l :=
    List.countP_pos.mpr ⟨l[i], List.getElem_mem h, h1⟩
  rw [List.countP_set p l i a h, h1, h2]
  simp only [if_true, Bool.false_eq_true, if_false, eq_self_iff_true]
  omega

theorem countP_set_false_true {α : Type} (p : α → Bool) (l : List α) (i : Nat)
    (a : α) (h : i < l.length) (h1 : p l[i] = false) (h2 : p a = true) :
    List.countP p (l.set i a) = List.countP p l + 1 := by
  rw [List.countP_set p l i a h, h1, h2]
  simp

theorem findIdx?_some_spec {α : Type} {p : α → Bool} {l : List α} {i : Nat}
    (h : l.findIdx? p = some i) : ∃ h' : i < l.length, p l[i] = true := by
  rw [List.findIdx?_eq_some_iff_findIdx_eq] at h
  obtain ⟨hlt, hfi⟩ := h
  refine ⟨hlt, ?_⟩
  subst hfi
  exact List.findIdx_getElem (w := hlt)

theorem countP_eraseIdx_append {α : Type} (p : α → Bool) (l : List α) (i : Nat)
    (h : i < l.length) (x : α) (hx : p x = p l[i]) :
    List.countP p (l.eraseIdx i ++ [x]) = List.countP p l := by
  have hperm := (perm_getElem_cons_eraseIdx l i h).countP_eq p
  rw [List.countP_append, hperm, List.countP_cons]
  simp only [List.countP_cons, List.countP_nil, hx]
  omega

/-! ## Characterization of the promotion phase (`paso2`) -/

theorem enumFrom_filter_map_fst (q : Process → Bool) (l : List Process) :
    ∀ n : Nat, ((List.enumFrom n l).filter fun pi => q pi.2).map Prod.fst
      = (idxsOf q l).map (· + n) := by
  induction l with
  | nil => intro n; simp [idxsOf]
  | cons x xs ih =>
    intro n
    simp only [List.enumFrom_cons, List.filter_cons, idxsOf]
    by_cases hq : q x
    · simp only [hq, if_true, List.map_cons, List.map_append, List.map_map,
        List.singleton_append, ih (n + 1)]
      congr 1
      · omega
      · refine List.map_congr_left fun i _ => ?_
        simp [Function.comp]
        omega
    · simp only [hq, Bool.false_eq_true, if_false, List.nil_append, ih (n + 1),
        List.map_map]
      refine List.map_congr_left fun i _ => ?_
      simp [Function.comp]
      omega

theorem toReadyIndices_eq (copia : List Process) :
    toReadyIndices copia
      = (idxsOf (fun p => decide (esPromovible p)) copia).reverse := by
  unfold toReadyIndices
  have h := enumFrom_filter_map_fst (fun p => decide (esPromovible p)) copia 0
  have he : copia.enum = List.enumFrom 0 copia := rfl
  rw [he, h]
  simp

theorem foldl_spliceStep_shift (idxs : List Nat) :
    ∀ (x : Process) (arr m : List Process),
      (idxs.map (· + 1)).foldl spliceStep (x :: arr, m)
        = (x :: (idxs.foldl spliceStep (arr, m)).1,
           (idxs.foldl spliceStep (arr, m)).2) := by
  induction idxs with
  | nil => intro x arr m; rfl
  | cons i idxs ih =>
    intro x arr m
    simp only [List.map_cons, List.foldl_cons]
    by_cases h : i < arr.length
    · have hstep : spliceStep (x :: arr, m) (i + 1)
          = (x :: arr.eraseIdx i, m ++ [{ arr[i] with estado := Estado.listo }]) := by
        unfold spliceStep
        rw [dif_pos (by simpa using Nat.succ_lt_succ h)]
        simp [List.eraseIdx_cons_succ]
      have hstep' : spliceStep (arr, m) i
          = (arr.eraseIdx i, m ++ [{ arr[i] with estado := Estado.listo }]) := by
        unfold spliceStep
        rw [dif_pos h]
      rw [hstep, hstep', ih]
    · have hstep : spliceStep (x :: arr, m) (i + 1) = (x :: arr, m) := by
        unfold spliceStep
        rw [dif_neg (by simpa using fun hh => h (Nat.lt_of_succ_lt_succ hh))]
      have hstep' : spliceStep (arr, m) i = (arr, m) := by
        unfold spliceStep
        rw [dif_neg (by simpa using h)]
      rw [hstep, hstep', ih]

theorem foldl_spliceStep_spec (q : Process → Bool) :
    ∀ (l m : List Process),
      ((idxsOf q l).reverse).foldl spliceStep (l, m)
        = (l.filter (fun p => !q p), m ++ ((l.filter q).map aListo).reverse) := by
  intro l
  induction l with
  | nil => intro m; simp [idxsOf]
  | cons x xs ih =>
    intro m
    simp only [idxsOf, List.reverse_append, List.foldl_append]
    have hrevmap : ((idxsOf q xs).map (· + 1)).reverse
        = ((idxsOf q xs).reverse).map (· + 1) := by
      rw [List.map_reverse]
    rw [hrevmap, foldl_spliceStep_shift, ih m]
    by_cases hq : q x
    · have h0 : spliceStep
          (x :: xs.filter (fun p => !q p),
           m ++ ((xs.filter q).map aListo).reverse) 0
          = (xs.filter (fun p => !q p),
             (m ++ ((xs.filter q).map aListo).reverse) ++ [aListo x]) := by
        unfold spliceStep
        rw [dif_pos (by simp)]
        rfl
      simp only [hq, if_true, List.reverse_cons, List.reverse_nil,
        List.nil_append, List.foldl_cons, List.foldl_nil, h0]
      simp only [List.filter_cons, hq, Bool.not_true, Bool.false_eq_true,
        if_false, if_true, List.map_cons, List.reverse_cons]
      rw [List.append_assoc]
    · simp only [hq, Bool.false_eq_true, if_false, List.reverse_nil,
        List.foldl_nil, List.filter_cons, Bool.not_false, if_true]

theorem paso2_eq (copia : List Process) :
    paso2 copia
      = copia.filter (fun p => !decide (esPromovible p))
        ++ ((copia.filter fun p => decide (esPromovible p)).map aListo).reverse := by
  unfold paso2
  rw [toReadyIndices_eq, foldl_spliceStep_spec]
  simp

/-! ## Case equations for the selection and the tail of the tick -/

theorem despacharEn_eq {copia : List Process} {j t : Nat} {pj : Process}
    (h : copia[j]? = some pj) :
    despacharEn copia j t = copia.set j (despachar t pj) := by
  unfold despacharEn
  rw [h]

theorem seleccion_exec {copia : List Process} {tA i : Nat}
    (h : copia.findIdx? (fun p => decide (p.estado = Estado.ejecutando)) = some i) :
    seleccion copia tA = (copia, some i) := by
  unfold seleccion
  rw [h]

theorem seleccion_listo {copia : List Process} {tA i : Nat}
    (he : copia.findIdx? (fun p => decide (p.estado = Estado.ejecutando)) = none)
    (hl : copia.findIdx? (fun p => decide (p.estado = Estado.listo)) = some i) :
    seleccion copia tA = (despacharEn copia i tA, some i) := by
  unfold seleccion
  rw [he, hl]

theorem seleccion_vacia {copia : List Process} {tA : Nat}
    (he : copia.findIdx? (fun p => decide (p.estado = Estado.ejecutando)) = none)
    (hl : copia.findIdx? (fun p => decide (p.estado = Estado.listo)) = none) :
    seleccion copia tA = (copia, none) := by
  unfold seleccion
  rw [he, hl]

theorem pasos3a8_none {copia0 cop : List Process} {tA : Nat}
    (hsel : seleccion copia0 tA = (cop, none)) : pasos3a8 copia0 tA = cop := by
  unfold pasos3a8
  rw [hsel]

theorem pasos3a8_term {copia0 cop : List Process} {tA i : Nat} {a : Process}
    (hsel : seleccion copia0 tA = (cop, some i)) (ha : cop[i]? = some a)
    (hr : (ejecutar a).tiempo_restante ≤ 0) :
    pasos3a8 copia0 tA
      = paso8 ((paso5 (cop.set i (ejecutar a)) i).set i (terminar (tA + 1) (ejecutar a)))
          (tA + 1) := by
  unfold pasos3a8
  rw [hsel]
  dsimp only
  rw [ha]
  dsimp only
  simp only [if_pos hr]

theorem pasos3a8_susp {copia0 cop : List Process} {tA i : Nat} {a : Process}
    (hsel : seleccion copia0 tA = (cop, some i)) (ha : cop[i]? = some a)
    (hr : ¬ (ejecutar a).tiempo_restante ≤ 0)
    (hs : sliceTimeDe (ejecutar a) ≤ (ejecutar a).tiempo_cpu) :
    pasos3a8 copia0 tA
      = paso8 ((paso5 (cop.set i (ejecutar a)) i).eraseIdx i
                ++ [suspenderPorQuantum (ejecutar a)]) (tA + 1) := by
  unfold pasos3a8
  rw [hsel]
  dsimp only
  rw [ha]
  dsimp only
  simp only [if_neg hr, if_pos hs]

theorem pasos3a8_cont {copia0 cop : List Process} {tA i : Nat} {a : Process}
    (hsel : seleccion copia0 tA = (cop, some i)) (ha : cop[i]? = some a)
    (hr : ¬ (ejecutar a).tiempo_restante ≤ 0)
    (hs : ¬ sliceTimeDe (ejecutar a) ≤ (ejecutar a).tiempo_cpu) :
    pasos3a8 copia0 tA = paso5 (cop.set i (ejecutar a)) i := by
  unfold pasos3a8
  rw [hsel]
  dsimp only
  rw [ha]
  dsimp only
  simp only [if_neg hr, if_neg hs]

theorem simularPasoQuantum_eq {prev : List Process} (h : ¬ prev.isEmpty) :
    simularPasoQuantum prev = pasos3a8 (paso2 (paso1 prev)) (tiempoActualDe prev) := by
  unfold simularPasoQuantum
  rw [if_neg h]

/-! ## Counting running records through each phase -/

theorem countP_mapIdx_congr {α : Type} (pr : α → Bool) (f : Nat → α → α)
    (l : List α) (h : ∀ i a, pr (f i a) = pr a) :
    List.countP pr (List.mapIdx f l) = List.countP pr l := by
  rw [List.mapIdx_eq_enum_map, List.countP_map]
  have h2 : List.countP (pr ∘ Function.uncurry f) l.enum
      = List.countP (pr ∘ Prod.snd) l.enum := by
    refine List.countP_congr fun x _ => ?_
    simp [Function.comp, Function.uncurry, h x.1 x.2]
  rw [h2, ← List.countP_map, List.enum_map_snd]

theorem map_mapIdx_congr {α β : Type} (g : α → β) (f : Nat → α → α)
    (l : List α) (h : ∀ i a, g (f i a) = g a) :
    (List.mapIdx f l).map g = l.map g := by
  rw [List.mapIdx_eq_enum_map, List.map_map]
  have h2 : List.map (g ∘ Function.uncurry f) l.enum
      = List.map (g ∘ Prod.snd) l.enum := by
    refine List.map_congr_left fun x _ => ?_
    simp [Function.comp, Function.uncurry, h x.1 x.2]
  rw [h2, ← List.map_map, List.enum_map_snd]

theorem estado_paso1_fun (p : Process) :
    (if p.estado = Estado.suspendido ∧ 0 < p.interactividad then
        { p with interactividad := p.interactividad - 1 }
      else p).estado = p.estado := by
  split <;> rfl

theorem countExec_paso1 (l : List Process) : countExec (paso1 l) = countExec l := by
  unfold countExec paso1
  rw [List.countP_map]
  refine List.countP_congr fun p _ => ?_
  simp [Function.comp, estado_paso1_fun p]

theorem countExec_paso2 (l : List Process) : countExec (paso2 l) = countExec l := by
  unfold countExec
  rw [paso2_eq, List.countP_append, List.countP_reverse, List.countP_map]
  have h1 : List.countP ((fun p => decide (p.estado = Estado.ejecutando)) ∘ aListo)
      (l.filter fun p => decide (esPromovible p)) = 0 := by
    refine List.countP_eq_zero.mpr fun a _ => ?_
    simp [Function.comp, aListo]
  rw [h1, Nat.add_zero, List.countP_filter]
  refine List.countP_congr fun x _ => ?_
  simp only [Bool.and_eq_true, decide_eq_true_eq, Bool.not_eq_true',
    decide_eq_false_iff_not]
  constructor
  · rintro ⟨h, -⟩; exact h
  · intro h
    refine ⟨h, fun hp => ?_⟩
    have h1 := hp.1
    rw [h] at h1
    simp at h1

theorem countExec_paso5 (l : List Process) (e : Nat) :
    countExec (paso5 l e) = countExec l := by
  unfold countExec paso5
  refine countP_mapIdx_congr _ _ _ fun i a => ?_
  split <;> rfl

theorem length_paso5 (l : List Process) (e : Nat) :
    (paso5 l e).length = l.length := by
  unfold paso5
  rw [List.mapIdx_eq_enum_map, List.length_map, List.enum_length]

theorem getElem?_paso5_self (l : List Process) (e : Nat) :
    (paso5 l e)[e]? = l[e]? := by
  by_cases h : e < l.length
  · have hlen : e < (paso5 l e).length := by rw [length_paso5]; exact h
    rw [List.getElem?_eq_getElem hlen, List.getElem?_eq_getElem h]
    congr 1
    unfold paso5
    rw [List.getElem_mapIdx]
    simp
  · rw [List.getElem?_eq_none (by rw [length_paso5]; omega),
      List.getElem?_eq_none (by omega)]

theorem countExec_paso8_le (l : List Process) (t : Nat) :
    countExec (paso8 l t) ≤ countExec l + 1 := by
  cases hfl : l.findIdx? (fun p => decide (p.estado = Estado.listo)) with
  | none =>
    unfold paso8
    rw [hfl]
    dsimp only
    omega
  | some j =>
    obtain ⟨hj, hpj⟩ := findIdx?_some_spec hfl
    unfold paso8
    rw [hfl]
    dsimp only
    rw [despacharEn_eq (List.getElem?_eq_getElem hj)]
    unfold countExec
    have h1 : (fun p => decide (p.estado = Estado.ejecutando)) l[j] = false := by
      simp only [decide_eq_true_eq] at hpj
      simp [hpj]
    rw [countP_set_false_true _ _ _ _ hj h1 (by simp [despachar])]

theorem estado_ejecutar (p : Process) : (ejecutar p).estado = p.estado := rfl

theorem estado_despachar (t : Nat) (p : Process) :
    (despachar t p).estado = Estado.ejecutando := rfl

theorem estado_terminar (t : Nat) (p : Process) :
    (terminar t p).estado = Estado.terminado := rfl

theorem estado_suspender (p : Process) :
    (suspenderPorQuantum p).estado = Estado.suspendido := rfl

theorem countExec_pasos3a8_selected (copia0 cop : List Process) (tA i : Nat)
    (hsel : seleccion copia0 tA = (cop, some i))
    (hi : i < cop.length) (hexec : cop[i].estado = Estado.ejecutando)
    (hcount : countExec cop ≤ 1) :
    countExec (pasos3a8 copia0 tA) ≤ 1 := by
  have ha : cop[i]? = some cop[i] := List.getElem?_eq_getElem hi
  have hi4 : i < (cop.set i (ejecutar cop[i])).length := by
    rw [List.length_set]; exact hi
  have hi5 : i < (paso5 (cop.set i (ejecutar cop[i])) i).length := by
    rw [length_paso5, List.length_set]; exact hi
  have hc4 : countExec (cop.set i (ejecutar cop[i])) = countExec cop :=
    countP_set_of_agree _ _ _ _ hi (by simp [estado_ejecutar])
  have hc5 : countExec (paso5 (cop.set i (ejecutar cop[i])) i) = countExec cop := by
    rw [countExec_paso5, hc4]
  have hg5 : (paso5 (cop.set i (ejecutar cop[i])) i)[i]? = some (ejecutar cop[i]) := by
    rw [getElem?_paso5_self, List.getElem?_set_self hi]
  have hg5e : (paso5 (cop.set i (ejecutar cop[i])) i)[i] = ejecutar cop[i] := by
    obtain ⟨hh, he⟩ := List.getElem?_eq_some_iff.mp hg5
    exact he
  have hp5 : decide ((paso5 (cop.set i (ejecutar cop[i])) i)[i].estado
      = Estado.ejecutando) = true := by
    rw [hg5e]
    simp [estado_ejecutar, hexec]
  by_cases hr : (ejecutar cop[i]).tiempo_restante ≤ 0
  · rw [pasos3a8_term hsel ha hr]
    have hset : countExec ((paso5 (cop.set i (ejecutar cop[i])) i).set i
        (terminar (tA + 1) (ejecutar cop[i]))) + 1
        = countExec (paso5 (cop.set i (ejecutar cop[i])) i) :=
      countP_set_true_false _ _ _ _ hi5 hp5 (by simp [estado_terminar])
    have hle := countExec_paso8_le ((paso5 (cop.set i (ejecutar cop[i])) i).set i
        (terminar (tA + 1) (ejecutar cop[i]))) (tA + 1)
    omega
  · by_cases hs : sliceTimeDe (ejecutar cop[i]) ≤ (ejecutar cop[i]).tiempo_cpu
    · rw [pasos3a8_susp hsel ha hr hs]
      have hperm := (perm_getElem_cons_eraseIdx
        (paso5 (cop.set i (ejecutar cop[i])) i) i hi5).countP_eq
        (fun p => decide (p.estado = Estado.ejecutando))
      rw [List.countP_cons, hp5] at hperm
      simp only [if_pos] at hperm
      have happ : countExec ((paso5 (cop.set i (ejecutar cop[i])) i).eraseIdx i
          ++ [suspenderPorQuantum (ejecutar cop[i])])
          = countExec ((paso5 (cop.set i (ejecutar cop[i])) i).eraseIdx i) := by
        unfold countExec
        rw [List.countP_append]
        simp [List.countP_cons, estado_suspender]
      have hle := countExec_paso8_le ((paso5 (cop.set i (ejecutar cop[i])) i).eraseIdx i
          ++ [suspenderPorQuantum (ejecutar cop[i])]) (tA + 1)
      unfold countExec at *
      omega
    · rw [pasos3a8_cont hsel ha hr hs]
      omega

theorem countExec_pasos3a8 (copia0 : List Process) (tA : Nat)
    (h : countExec copia0 ≤ 1) : countExec (pasos3a8 copia0 tA) ≤ 1 := by
  cases hfe : copia0.findIdx? (fun p => decide (p.estado = Estado.ejecutando)) with
  | some i =>
    obtain ⟨hi, hpi⟩ := findIdx?_some_spec hfe
    refine countExec_pasos3a8_selected copia0 copia0 tA i
      (seleccion_exec hfe) hi ?_ h
    simpa using hpi
  | none =>
    have h0 : countExec copia0 = 0 := by
      refine List.countP_eq_zero.mpr fun a ha => ?_
      simp [List.findIdx?_eq_none_iff.mp hfe a ha]
    cases hfl : copia0.findIdx? (fun p => decide (p.estado = Estado.listo)) with
    | none =>
      rw [pasos3a8_none (seleccion_vacia hfe hfl)]
      omega
    | some i =>
      obtain ⟨hi, hpi⟩ := findIdx?_some_spec hfl
      have hsel : seleccion copia0 tA
          = (copia0.set i (despachar tA copia0[i]), some i) := by
        rw [seleccion_listo hfe hfl,
          despacharEn_eq (List.getElem?_eq_getElem hi)]
      have hi' : i < (copia0.set i (despachar tA copia0[i])).length := by
        rw [List.length_set]; exact hi
      have hexec : (copia0.set i (despachar tA copia0[i]))[i].estado
          = Estado.ejecutando := by
        rw [List.getElem_set_self]
        rfl
      have hc : countExec (copia0.set i (despachar tA copia0[i])) = 1 := by
        unfold countExec
        rw [countP_set_false_true _ _ _ _ hi
          (by simp only [decide_eq_true_eq] at hpi; simp [hpi])
          (by simp [estado_despachar])]
        unfold countExec at h0
        omega
      exact countExec_pasos3a8_selected copia0 _ tA i hsel hi' hexec (by omega)

/-- `countExec` is preserved as `≤ 1` by one full tick. -/
theorem countExec_simularPasoQuantum (q : List Process) (h : countExec q ≤ 1) :
    countExec (simularPasoQuantum q) ≤ 1 := by
  by_cases hq : q.isEmpty
  · unfold simularPasoQuantum
    rw [if_pos hq]
    exact h
  · rw [simularPasoQuantum_eq hq]
    refine countExec_pasos3a8 _ _ ?_
    rw [countExec_paso2, countExec_paso1]
    exact h

/-! ## `actualizarProceso` with `estado = "ejecutando"` -/

theorem actualizar_ejec_eq (pid : Nat) (c : Cambios) (prev : List Process)
    {idx : Nat} {prevP : Process}
    (hfi : prev.findIdx? (fun p => decide (p.pid = pid)) = some idx)
    (hg : prev[idx]? = some prevP)
    (hc : c.estado = some Estado.ejecutando) :
    actualizarProceso pid c prev = prev.map (fun p =>
      if p.pid = pid then
        { (aplicarCambios prevP c) with
          estado := Estado.ejecutando,
          t_inicio := some (p.t_inicio.getD (tiempoActualDe prev)) }
      else if p.estado = Estado.ejecutando then { p with estado := Estado.listo }
      else p) := by
  unfold actualizarProceso
  rw [hfi]
  dsimp only
  rw [hg]
  dsimp only
  rw [if_pos hc]

theorem countExec_actualizarProceso (pid : Nat) (c : Cambios) (prev : List Process)
    (hc : c.estado = some Estado.ejecutando)
    (hnd : (prev.map Process.pid).Nodup) (h : countExec prev ≤ 1) :
    countExec (actualizarProceso pid c prev) ≤ 1 := by
  cases hfi : prev.findIdx? (fun p => decide (p.pid = pid)) with
  | none =>
    unfold actualizarProceso
    rw [hfi]
    exact h
  | some idx =>
    obtain ⟨hi, -⟩ := findIdx?_some_spec hfi
    rw [actualizar_ejec_eq pid c prev hfi (List.getElem?_eq_getElem hi) hc]
    unfold countExec
    rw [List.countP_map]
    have hcong : ∀ x ∈ prev,
        ((fun p => decide (p.estado = Estado.ejecutando)) ∘ (fun p =>
          if p.pid = pid then
            { (aplicarCambios prev[idx] c) with
              estado := Estado.ejecutando,
              t_inicio := some (p.t_inicio.getD (tiempoActualDe prev)) }
          else if p.estado = Estado.ejecutando then { p with estado := Estado.listo }
          else p)) x = true ↔ (fun p => decide (p.pid = pid)) x = true := by
      intro x _
      by_cases hx : x.pid = pid
      · simp [Function.comp, hx]
      · by_cases he : x.estado = Estado.ejecutando
        · simp [Function.comp, hx, he]
        · simp [Function.comp, hx, he]
    rw [List.countP_congr hcong]
    have hcnt := List.nodup_iff_count_le_one.mp hnd pid
    have h2 : List.countP (fun p => decide (p.pid = pid)) prev
        = List.count pid (prev.map Process.pid) := by
      rw [List.count_eq_countP, List.countP_map]
      refine List.countP_congr fun x _ => ?_
      simp [Function.comp]
    rw [h2]
    exact hcnt

theorem demote_actualizarProceso (pid : Nat) (c : Cambios) (prev : List Process)
    (hc : c.estado = some Estado.ejecutando)
    {idx : Nat} (hfi : prev.findIdx? (fun p => decide (p.pid = pid)) = some idx)
    {j : Nat} (hj : j < prev.length) (hne : prev[j].pid ≠ pid)
    (hex : prev[j].estado = Estado.ejecutando) :
    (actualizarProceso pid c prev)[j]?
      = some { prev[j] with estado := Estado.listo } := by
  obtain ⟨hi, -⟩ := findIdx?_some_spec hfi
  rw [actualizar_ejec_eq pid c prev hfi (List.getElem?_eq_getElem hi) hc]
  rw [List.getElem?_map, List.getElem?_eq_getElem hj]
  dsimp only [Option.map_some']
  rw [if_neg hne, if_pos hex]

/-! ## The tick permutes records and fixes pid, name, total time, quantum -/

theorem map_set_of_agree {α β : Type} (g : α → β) (l : List α) (i : Nat) (a : α)
    (h : i < l.length) (hag : g a = g l[i]) :
    (l.set i a).map g = l.map g := by
  have hlen : i < (l.map g).length := by rw [List.length_map]; exact h
  rw [List.map_set, hag, ← List.getElem_map g (h := hlen), list_set_self _ _ hlen]

theorem map_clave_paso1 (l : List Process) :
    (paso1 l).map claveFija = l.map claveFija := by
  unfold paso1
  rw [List.map_map]
  refine List.map_congr_left fun p _ => ?_
  simp only [Function.comp]
  split <;> rfl

theorem perm_clave_paso2 (l : List Process) :
    ((paso2 l).map claveFija).Perm (l.map claveFija) := by
  have hcomp : claveFija ∘ aListo = claveFija := rfl
  rw [paso2_eq, List.map_append, List.map_reverse, List.map_map, hcomp]
  refine List.Perm.trans (List.Perm.append_left _ (List.reverse_perm _)) ?_
  refine List.Perm.trans List.perm_append_comm ?_
  rw [← List.map_append]
  exact List.Perm.map claveFija (List.filter_append_perm _ l)

theorem map_clave_paso5 (l : List Process) (e : Nat) :
    (paso5 l e).map claveFija = l.map claveFija := by
  unfold paso5
  refine map_mapIdx_congr _ _ _ fun i a => ?_
  split <;> rfl

theorem map_clave_paso8 (l : List Process) (t : Nat) :
    (paso8 l t).map claveFija = l.map claveFija := by
  cases hfl : l.findIdx? (fun p => decide (p.estado = Estado.listo)) with
  | none =>
    unfold paso8
    rw [hfl]
  | some j =>
    obtain ⟨hj, -⟩ := findIdx?_some_spec hfl
    unfold paso8
    rw [hfl]
    dsimp only
    rw [despacharEn_eq (List.getElem?_eq_getElem hj)]
    exact map_set_of_agree _ _ _ _ hj rfl

theorem perm_clave_pasos3a8_selected (copia0 cop : List Process) (tA i : Nat)
    (hsel : seleccion copia0 tA = (cop, some i)) (hi : i < cop.length) :
    ((pasos3a8 copia0 tA).map claveFija).Perm (cop.map claveFija) := by
  have ha : cop[i]? = some cop[i] := List.getElem?_eq_getElem hi
  have hi4 : i < (cop.set i (ejecutar cop[i])).length := by
    rw [List.length_set]; exact hi
  have hi5 : i < (paso5 (cop.set i (ejecutar cop[i])) i).length := by
    rw [length_paso5, List.length_set]; exact hi
  have hm4 : (cop.set i (ejecutar cop[i])).map claveFija = cop.map claveFija :=
    map_set_of_agree _ _ _ _ hi rfl
  have hm5 : (paso5 (cop.set i (ejecutar cop[i])) i).map claveFija
      = cop.map claveFija := by
    rw [map_clave_paso5, hm4]
  have hg5e : (paso5 (cop.set i (ejecutar cop[i])) i)[i] = ejecutar cop[i] := by
    have hg5 : (paso5 (cop.set i (ejecutar cop[i])) i)[i]? = some (ejecutar cop[i]) := by
      rw [getElem?_paso5_self, List.getElem?_set_self hi]
    obtain ⟨hh, he⟩ := List.getElem?_eq_some_iff.mp hg5
    exact he
  by_cases hr : (ejecutar cop[i]).tiempo_restante ≤ 0
  · rw [pasos3a8_term hsel ha hr, map_clave_paso8]
    rw [map_set_of_agree claveFija _ i (terminar (tA + 1) (ejecutar cop[i])) hi5
      (by rw [hg5e]; rfl), hm5]
  · by_cases hs : sliceTimeDe (ejecutar cop[i]) ≤ (ejecutar cop[i]).tiempo_cpu
    · rw [pasos3a8_susp hsel ha hr hs, map_clave_paso8, List.map_append]
      have h1 : ((paso5 (cop.set i (ejecutar cop[i])) i).eraseIdx i).map claveFija
            ++ [suspenderPorQuantum (ejecutar cop[i])].map claveFija
          = ((paso5 (cop.set i (ejecutar cop[i])) i).eraseIdx i).map claveFija
            ++ [claveFija ((paso5 (cop.set i (ejecutar cop[i])) i)[i])] := by
        rw [hg5e]
        rfl
      rw [h1]
      refine List.Perm.trans (List.perm_append_singleton _ _) ?_
      have hperm := (perm_getElem_cons_eraseIdx
        (paso5 (cop.set i (ejecutar cop[i])) i) i hi5).map claveFija
      rw [List.map_cons] at hperm
      refine hperm.symm.trans ?_
      rw [hm5]
    · rw [pasos3a8_cont hsel ha hr hs, hm5]

theorem perm_clave_pasos3a8 (copia0 : List Process) (tA : Nat) :
    ((pasos3a8 copia0 tA).map claveFija).Perm (copia0.map claveFija) := by
  cases hfe : copia0.findIdx? (fun p => decide (p.estado = Estado.ejecutando)) with
  | some i =>
    obtain ⟨hi, -⟩ := findIdx?_some_spec hfe
    exact perm_clave_pasos3a8_selected copia0 copia0 tA i (seleccion_exec hfe) hi
  | none =>
    cases hfl : copia0.findIdx? (fun p => decide (p.estado = Estado.listo)) with
    | none =>
      rw [pasos3a8_none (seleccion_vacia hfe hfl)]
    | some i =>
      obtain ⟨hi, -⟩ := findIdx?_some_spec hfl
      have hsel : seleccion copia0 tA
          = (copia0.set i (despachar tA copia0[i]), some i) := by
        rw [seleccion_listo hfe hfl,
          despacharEn_eq (List.getElem?_eq_getElem hi)]
      have hi' : i < (copia0.set i (despachar tA copia0[i])).length := by
        rw [List.length_set]; exact hi
      refine (perm_clave_pasos3a8_selected copia0 _ tA i hsel hi').trans ?_
      rw [map_set_of_agree claveFija copia0 i (despachar tA copia0[i]) hi rfl]

/-- One tick permutes the records: the multiset of
(pid, name, total time, quantum) quadruples is unchanged. -/
theorem perm_clave_tick (q : List Process) :
    ((simularPasoQuantum q).map claveFija).Perm (q.map claveFija) := by
  by_cases hq : q.isEmpty
  · unfold simularPasoQuantum
    rw [if_pos hq]
  · rw [simularPasoQuantum_eq hq]
    refine (perm_clave_pasos3a8 (paso2 (paso1 q)) (tiempoActualDe q)).trans ?_
    refine (perm_clave_paso2 (paso1 q)).trans ?_
    rw [map_clave_paso1]

/-! ## Lineage of records through a tick (for the remaining-time claims) -/

theorem linaje_refl (p : Process) :
    claveFija p = claveFija p ∧
      (p.tiempo_restante = p.tiempo_restante ∨
       p.tiempo_restante = max 0 (p.tiempo_restante - 1)) :=
  ⟨rfl, Or.inl rfl⟩

theorem linaje_trans_left {p q r : Process}
    (hpq : claveFija p = claveFija q ∧ p.tiempo_restante = q.tiempo_restante)
    (hqr : claveFija q = claveFija r ∧
      (r.tiempo_restante = q.tiempo_restante ∨
       r.tiempo_restante = max 0 (q.tiempo_restante - 1))) :
    claveFija p = claveFija r ∧
      (r.tiempo_restante = p.tiempo_restante ∨
       r.tiempo_restante = max 0 (p.tiempo_restante - 1)) := by
  obtain ⟨h1, h2⟩ := hpq
  obtain ⟨h3, h4⟩ := hqr
  exact ⟨h1.trans h3, by rw [h2]; exact h4⟩

theorem linaje_trans_right {p q r : Process}
    (hpq : claveFija p = claveFija q ∧
      (q.tiempo_restante = p.tiempo_restante ∨
       q.tiempo_restante = max 0 (p.tiempo_restante - 1)))
    (hqr : claveFija q = claveFija r ∧ q.tiempo_restante = r.tiempo_restante) :
    claveFija p = claveFija r ∧
      (r.tiempo_restante = p.tiempo_restante ∨
       r.tiempo_restante = max 0 (p.tiempo_restante - 1)) := by
  obtain ⟨h1, h2⟩ := hpq
  obtain ⟨h3, h4⟩ := hqr
  exact ⟨h1.trans h3, by rw [← h4]; exact h2⟩

theorem mem_paso1 (l : List Process) :
    ∀ p' ∈ paso1 l, ∃ p ∈ l,
      claveFija p = claveFija p' ∧ p.tiempo_restante = p'.tiempo_restante := by
  intro p' hp'
  obtain ⟨p, hp, hfp⟩ := List.mem_map.mp hp'
  refine ⟨p, hp, ?_⟩
  rw [← hfp]
  constructor <;> (split <;> rfl)

theorem mem_paso2 (l : List Process) :
    ∀ p' ∈ paso2 l, ∃ p ∈ l,
      claveFija p = claveFija p' ∧ p.tiempo_restante = p'.tiempo_restante := by
  intro p' hp'
  rw [paso2_eq] at hp'
  rcases List.mem_append.mp hp' with hm | hm
  · exact ⟨p', (List.mem_filter.mp hm).1, rfl, rfl⟩
  · rw [List.mem_reverse] at hm
    obtain ⟨p, hp, hfp⟩ := List.mem_map.mp hm
    exact ⟨p, (List.mem_filter.mp hp).1, by rw [← hfp]; exact ⟨rfl, rfl⟩⟩

theorem mem_paso5 (l : List Process) (e : Nat) :
    ∀ p' ∈ paso5 l e, ∃ p ∈ l,
      claveFija p = claveFija p' ∧ p.tiempo_restante = p'.tiempo_restante := by
  intro p' hp'
  obtain ⟨i, hil, hfp⟩ := List.mem_mapIdx.mp hp'
  refine ⟨l[i], List.getElem_mem hil, ?_⟩
  rw [← hfp]
  constructor <;> (split <;> rfl)

theorem mem_paso8 (l : List Process) (t : Nat) :
    ∀ p' ∈ paso8 l t, ∃ p ∈ l,
      claveFija p = claveFija p' ∧ p.tiempo_restante = p'.tiempo_restante := by
  intro p' hp'
  cases hfl : l.findIdx? (fun p => decide (p.estado = Estado.listo)) with
  | none =>
    unfold paso8 at hp'
    rw [hfl] at hp'
    exact ⟨p', hp', rfl, rfl⟩
  | some j =>
    obtain ⟨hj, -⟩ := findIdx?_some_spec hfl
    unfold paso8 at hp'
    rw [hfl] at hp'
    dsimp only at hp'
    rw [despacharEn_eq (List.getElem?_eq_getElem hj)] at hp'
    rcases List.mem_or_eq_of_mem_set hp' with hm | hm
    · exact ⟨p', hm, rfl, rfl⟩
    · exact ⟨l[j], List.getElem_mem hj, by rw [hm]; exact ⟨rfl, rfl⟩⟩

theorem mem_pasos3a8_selected (copia0 cop : List Process) (tA i : Nat)
    (hsel : seleccion copia0 tA = (cop, some i)) (hi : i < cop.length) :
    ∀ p' ∈ pasos3a8 copia0 tA, ∃ p ∈ cop,
      claveFija p = claveFija p' ∧
        (p'.tiempo_restante = p.tiempo_restante ∨
         p'.tiempo_restante = max 0 (p.tiempo_restante - 1)) := by
  have ha : cop[i]? = some cop[i] := List.getElem?_eq_getElem hi
  have hi5 : i < (paso5 (cop.set i (ejecutar cop[i])) i).length := by
    rw [length_paso5, List.length_set]; exact hi
  have hc5 : ∀ x ∈ paso5 (cop.set i (ejecutar cop[i])) i, ∃ p ∈ cop,
      claveFija p = claveFija x ∧
        (x.tiempo_restante = p.tiempo_restante ∨
         x.tiempo_restante = max 0 (p.tiempo_restante - 1)) := by
    intro x hx
    obtain ⟨y, hy, heq⟩ := mem_paso5 _ _ x hx
    rcases List.mem_or_eq_of_mem_set hy with hm | hm
    · exact ⟨y, hm, linaje_trans_right (linaje_refl y) heq⟩
    · refine ⟨cop[i], List.getElem_mem hi, ?_⟩
      refine linaje_trans_right ?_ heq
      rw [hm]
      exact ⟨rfl, Or.inr rfl⟩
  by_cases hr : (ejecutar cop[i]).tiempo_restante ≤ 0
  · rw [pasos3a8_term hsel ha hr]
    intro p' hp'
    obtain ⟨z, hz, heq⟩ := mem_paso8 _ _ p' hp'
    rcases List.mem_or_eq_of_mem_set hz with hm | hm
    · obtain ⟨p, hp, hlin⟩ := hc5 z hm
      exact ⟨p, hp, linaje_trans_right hlin heq⟩
    · refine ⟨cop[i], List.getElem_mem hi, linaje_trans_right ?_ heq⟩
      rw [hm]
      exact ⟨rfl, Or.inr rfl⟩
  · by_cases hs : sliceTimeDe (ejecutar cop[i]) ≤ (ejecutar cop[i]).tiempo_cpu
    · rw [pasos3a8_susp hsel ha hr hs]
      intro p' hp'
      obtain ⟨z, hz, heq⟩ := mem_paso8 _ _ p' hp'
      rcases List.mem_append.mp hz with hm | hm
      · obtain ⟨p, hp, hlin⟩ :=
          hc5 z (List.Sublist.mem hm (List.eraseIdx_sublist _ i))
        exact ⟨p, hp, linaje_trans_right hlin heq⟩
      · have hzz : z = suspenderPorQuantum (ejecutar cop[i]) := by
          simpa using hm
        refine ⟨cop[i], List.getElem_mem hi, linaje_trans_right ?_ heq⟩
        rw [hzz]
        exact ⟨rfl, Or.inr rfl⟩
    · rw [pasos3a8_cont hsel ha hr hs]
      exact hc5

theorem mem_pasos3a8 (copia0 : List Process) (tA : Nat) :
    ∀ p' ∈ pasos3a8 copia0 tA, ∃ p ∈ copia0,
      claveFija p = claveFija p' ∧
        (p'.tiempo_restante = p.tiempo_restante ∨
         p'.tiempo_restante = max 0 (p.tiempo_restante - 1)) := by
  cases hfe : copia0.findIdx? (fun p => decide (p.estado = Estado.ejecutando)) with
  | some i =>
    obtain ⟨hi, -⟩ := findIdx?_some_spec hfe
    exact mem_pasos3a8_selected copia0 copia0 tA i (seleccion_exec hfe) hi
  | none =>
    cases hfl : copia0.findIdx? (fun p => decide (p.estado = Estado.listo)) with
    | none =>
      rw [pasos3a8_none (seleccion_vacia hfe hfl)]
      intro p' hp'
      exact ⟨p', hp', linaje_refl p'⟩
    | some i =>
      obtain ⟨hi, -⟩ := findIdx?_some_spec hfl
      have hsel : seleccion copia0 tA
          = (copia0.set i (despachar tA copia0[i]), some i) := by
        rw [seleccion_listo hfe hfl,
          despacharEn_eq (List.getElem?_eq_getElem hi)]
      have hi' : i < (copia0.set i (despachar tA copia0[i])).length := by
        rw [List.length_set]; exact hi
      intro p' hp'
      obtain ⟨p, hp, hlin⟩ :=
        mem_pasos3a8_selected copia0 _ tA i hsel hi' p' hp'
      rcases List.mem_or_eq_of_mem_set hp with hm | hm
      · exact ⟨p, hm, hlin⟩
      · refine ⟨copia0[i], List.getElem_mem hi, ?_⟩
        refine linaje_trans_left ?_ hlin
        rw [hm]
        exact ⟨rfl, rfl⟩

/-- Every record after a tick descends from an input record with the same
pid, name, total time and quantum, whose remaining time either is unchanged
or underwent the single execution decrement `max(0, r - 1)`. -/
theorem mem_tick (q : List Process) :
    ∀ p' ∈ simularPasoQuantum q, ∃ p ∈ q,
      claveFija p = claveFija p' ∧
        (p'.tiempo_restante = p.tiempo_restante ∨
         p'.tiempo_restante = max 0 (p.tiempo_restante - 1)) := by
  by_cases hq : q.isEmpty
  · unfold simularPasoQuantum
    rw [if_pos hq]
    intro p' hp'
    exact ⟨p', hp', linaje_refl p'⟩
  · rw [simularPasoQuantum_eq hq]
    intro p' hp'
    obtain ⟨z, hz, hlin⟩ := mem_pasos3a8 _ _ p' hp'
    obtain ⟨y, hy, heq2⟩ := mem_paso2 _ z hz
    obtain ⟨p, hp, heq1⟩ := mem_paso1 _ y hy
    exact ⟨p, hp, linaje_trans_left heq1 (linaje_trans_left heq2 hlin)⟩

/-! ## Where the executed record ends up -/

theorem length_paso8 (l : List Process) (t : Nat) :
    (paso8 l t).length = l.length := by
  cases hfl : l.findIdx? (fun p => decide (p.estado = Estado.listo)) with
  | none =>
    unfold paso8
    rw [hfl]
  | some j =>
    obtain ⟨hj, -⟩ := findIdx?_some_spec hfl
    unfold paso8
    rw [hfl]
    dsimp only
    rw [despacharEn_eq (List.getElem?_eq_getElem hj), List.length_set]

theorem paso8_getElem?_of_ne (l : List Process) (t : Nat) (i : Nat)
    (hi : i < l.length) (hne : ¬ l[i].estado = Estado.listo) :
    (paso8 l t)[i]? = l[i]? := by
  cases hfl : l.findIdx? (fun p => decide (p.estado = Estado.listo)) with
  | none =>
    unfold paso8
    rw [hfl]
  | some j =>
    obtain ⟨hj, hpj⟩ := findIdx?_some_spec hfl
    have hji : j ≠ i := by
      intro hh
      subst hh
      exact hne (by simpa using hpj)
    unfold paso8
    rw [hfl]
    dsimp only
    rw [despacharEn_eq (List.getElem?_eq_getElem hj)]
    exact List.getElem?_set_ne hji

theorem pasos3a8_term_out {copia0 cop : List Process} {tA i : Nat}
    (hsel : seleccion copia0 tA = (cop, some i)) (hi : i < cop.length)
    (hr : (ejecutar cop[i]).tiempo_restante ≤ 0) :
    (pasos3a8 copia0 tA)[i]? = some (terminar (tA + 1) (ejecutar cop[i])) := by
  have ha : cop[i]? = some cop[i] := List.getElem?_eq_getElem hi
  have hi5 : i < (paso5 (cop.set i (ejecutar cop[i])) i).length := by
    rw [length_paso5, List.length_set]; exact hi
  have hiset : i < ((paso5 (cop.set i (ejecutar cop[i])) i).set i
      (terminar (tA + 1) (ejecutar cop[i]))).length := by
    rw [List.length_set]; exact hi5
  rw [pasos3a8_term hsel ha hr]
  rw [paso8_getElem?_of_ne _ _ i hiset ?hne]
  · exact List.getElem?_set_self hi5
  case hne =>
    rw [List.getElem_set_self]
    simp [estado_terminar]

theorem pasos3a8_cont_out {copia0 cop : List Process} {tA i : Nat}
    (hsel : seleccion copia0 tA = (cop, some i)) (hi : i < cop.length)
    (hr : ¬ (ejecutar cop[i]).tiempo_restante ≤ 0)
    (hs : ¬ sliceTimeDe (ejecutar cop[i]) ≤ (ejecutar cop[i]).tiempo_cpu) :
    (pasos3a8 copia0 tA)[i]? = some (ejecutar cop[i]) := by
  have ha : cop[i]? = some cop[i] := List.getElem?_eq_getElem hi
  rw [pasos3a8_cont hsel ha hr hs, getElem?_paso5_self]
  exact List.getElem?_set_self hi

theorem pasos3a8_susp_out {copia0 cop : List Process} {tA i : Nat}
    (hsel : seleccion copia0 tA = (cop, some i)) (hi : i < cop.length)
    (hr : ¬ (ejecutar cop[i]).tiempo_restante ≤ 0)
    (hs : sliceTimeDe (ejecutar cop[i]) ≤ (ejecutar cop[i]).tiempo_cpu) :
    (pasos3a8 copia0 tA).getLast?
      = some (suspenderPorQuantum (ejecutar cop[i])) := by
  have ha : cop[i]? = some cop[i] := List.getElem?_eq_getElem hi
  rw [pasos3a8_susp hsel ha hr hs]
  set L := (paso5 (cop.set i (ejecutar cop[i])) i).eraseIdx i
    ++ [suspenderPorQuantum (ejecutar cop[i])] with hL
  have hlast : L.getLast? = some (suspenderPorQuantum (ejecutar cop[i])) :=
    List.getLast?_concat _
  have hlen : 0 < L.length := by
    rw [hL, List.length_append]
    simp
  have hgl : L[L.length - 1]? = some (suspenderPorQuantum (ejecutar cop[i])) := by
    rw [← List.getLast?_eq_getElem?]
    exact hlast
  obtain ⟨hlt, hge⟩ := List.getElem?_eq_some_iff.mp hgl
  rw [List.getLast?_eq_getElem?, length_paso8,
    paso8_getElem?_of_ne L _ (L.length - 1) hlt ?hne]
  · exact hgl
  case hne =>
    rw [hge]
    simp [estado_suspender]

theorem clave_eq_iff (p q : Process) :
    claveFija p = claveFija q
      ↔ p.pid = q.pid ∧ p.nombre = q.nombre ∧
        p.tiempo_total = q.tiempo_total ∧ p.quantum = q.quantum := by
  unfold claveFija
  simp [Prod.ext_iff]

theorem getElem?_mapIdx {α β : Type} (f : Nat → α → β) (l : List α) (j : Nat) :
    (List.mapIdx f l)[j]? = l[j]?.map (f j) := by
  by_cases h : j < l.length
  · rw [List.getElem?_eq_getElem (by rw [List.length_mapIdx]; exact h),
      List.getElem?_eq_getElem h, List.getElem_mapIdx]
    rfl
  · rw [List.getElem?_eq_none (by rw [List.length_mapIdx]; omega),
      List.getElem?_eq_none (by omega)]
    rfl

/-! ## Claim theorems -/

/-- C9: ticking a non-empty queue in which every record is `terminado`
returns the queue unchanged, record by record; the engine is total, so it
cannot fail on such queues. -/
theorem C9_tick_todos_terminados (q : List Process) (hne : q ≠ [])
    (hall : ∀ p ∈ q, p.estado = Estado.terminado) :
    simularPasoQuantum q = q := by
  have hq : ¬ q.isEmpty = true := by
    rw [List.isEmpty_iff]
    exact hne
  rw [simularPasoQuantum_eq hq]
  have h1 : paso1 q = q := by
    unfold paso1
    have hcong : ∀ p ∈ q,
        (if p.estado = Estado.suspendido ∧ 0 < p.interactividad then
          { p with interactividad := p.interactividad - 1 }
        else p) = id p := by
      intro p hp
      rw [if_neg]
      · rfl
      · rw [hall p hp]
        simp
    rw [List.map_congr_left hcong, List.map_id]
  rw [h1]
  have h2 : paso2 q = q := by
    rw [paso2_eq]
    have hfa : q.filter (fun p => !decide (esPromovible p)) = q := by
      refine List.filter_eq_self.mpr fun p hp => ?_
      have : ¬ esPromovible p := by
        intro hpr
        have hc := hpr.1
        rw [hall p hp] at hc
        simp at hc
      simp [this]
    have hfb : q.filter (fun p => decide (esPromovible p)) = [] := by
      refine List.filter_eq_nil_iff.mpr fun p hp => ?_
      have : ¬ esPromovible p := by
        intro hpr
        have hc := hpr.1
        rw [hall p hp] at hc
        simp at hc
      simp [this]
    rw [hfa, hfb]
    simp
  rw [h2]
  have hfe : q.findIdx? (fun p => decide (p.estado = Estado.ejecutando)) = none := by
    refine List.findIdx?_eq_none_iff.mpr fun p hp => ?_
    rw [hall p hp]
    simp
  have hfl : q.findIdx? (fun p => decide (p.estado = Estado.listo)) = none := by
    refine List.findIdx?_eq_none_iff.mpr fun p hp => ?_
    rw [hall p hp]
    simp
  exact pasos3a8_none (seleccion_vacia hfe hfl)

/-- C9 witness: the identity tick on a concrete all-terminated queue. -/
theorem C9_witness : simularPasoQuantum qTerminados = qTerminados :=
  C9_tick_todos_terminados qTerminados (by decide) (by decide)

/-- C10: one tick of the engine neither creates nor deletes records — the
multiset of (pid, nombre, tiempo_total, quantum) quadruples of the output is
a permutation of the input's — and every output record keeps the pid,
nombre, tiempo_total and quantum of the input record it descends from. -/
theorem C10_tick_marco (q : List Process) :
    ((simularPasoQuantum q).map claveFija).Perm (q.map claveFija) ∧
    ∀ p' ∈ simularPasoQuantum q, ∃ p ∈ q,
      p.pid = p'.pid ∧ p.nombre = p'.nombre ∧
      p.tiempo_total = p'.tiempo_total ∧ p.quantum = p'.quantum := by
  refine ⟨perm_clave_tick q, fun p' hp' => ?_⟩
  obtain ⟨p, hp, hclave, -⟩ := mem_tick q p' hp'
  exact ⟨p, hp, (clave_eq_iff p p').mp hclave⟩

/-- C10 witness: the frame property evaluated on the concrete FIFO queue. -/
theorem C10_witness :
    ((simularPasoQuantum qFIFO).map claveFija).Perm (qFIFO.map claveFija) ∧
    ∀ p' ∈ simularPasoQuantum qFIFO, ∃ p ∈ qFIFO,
      p.pid = p'.pid ∧ p.nombre = p'.nombre ∧
      p.tiempo_total = p'.tiempo_total ∧ p.quantum = p'.quantum :=
  C10_tick_marco qFIFO

/-- C7: `crearProceso` is atomic on duplicate pids — if some record in the
queue already carries `bcp.pid` the queue is returned completely unchanged,
otherwise the normalized record is appended at the tail. -/
theorem C7_crearProceso_duplicado (bcp : Process) (prev : List Process) :
    ((∃ p ∈ prev, p.pid = bcp.pid) → crearProceso bcp prev = prev) ∧
    ((¬ ∃ p ∈ prev, p.pid = bcp.pid) →
      crearProceso bcp prev = prev ++ [normalizarBCP bcp]) := by
  constructor
  · intro h
    unfold crearProceso
    rw [if_pos]
    obtain ⟨p, hp, he⟩ := h
    exact List.any_eq_true.mpr ⟨p, hp, by simp [he]⟩
  · intro h
    unfold crearProceso
    rw [if_neg]
    intro hany
    obtain ⟨p, hp, he⟩ := List.any_eq_true.mp hany
    exact h ⟨p, hp, by simpa using he⟩

/-- C7 witness: a colliding pid is rejected, a fresh pid is appended. -/
theorem C7_witness :
    crearProceso pA qFIFO = qFIFO ∧
    crearProceso pFresco qFIFO = qFIFO ++ [normalizarBCP pFresco] :=
  ⟨(C7_crearProceso_duplicado pA qFIFO).1 (by decide),
   (C7_crearProceso_duplicado pFresco qFIFO).2 (by decide)⟩

/-- C1: a tick of the engine preserves "at most one record is ejecutando",
and `actualizarProceso` with `cambios.estado = "ejecutando"` also leaves at
most one running record on a queue with distinct pids, demoting any other
previously-executing record to `listo`. -/
theorem C1_a_lo_mas_uno_ejecutando (q : List Process) (hq : countExec q ≤ 1) :
    countExec (simularPasoQuantum q) ≤ 1 ∧
    ∀ (pid : Nat) (c : Cambios), c.estado = some Estado.ejecutando →
      (q.map Process.pid).Nodup →
      countExec (actualizarProceso pid c q) ≤ 1 ∧
      ∀ idx, q.findIdx? (fun p => decide (p.pid = pid)) = some idx →
        ∀ j, ∀ hj : j < q.length, q[j].pid ≠ pid →
          q[j].estado = Estado.ejecutando →
          (actualizarProceso pid c q)[j]?
            = some { q[j] with estado := Estado.listo } := by
  refine ⟨countExec_simularPasoQuantum q hq, fun pid c hc hnd => ?_⟩
  refine ⟨countExec_actualizarProceso pid c q hc hnd hq, ?_⟩
  intro idx hfi j hj hne hex
  exact demote_actualizarProceso pid c q hc hfi hj hne hex

/-- C1 witness: the invariant evaluated on a concrete queue with one
running record. -/
theorem C1_witness :
    countExec (simularPasoQuantum qPromReversa) ≤ 1 ∧
    ∀ (pid : Nat) (c : Cambios), c.estado = some Estado.ejecutando →
      (qPromReversa.map Process.pid).Nodup →
      countExec (actualizarProceso pid c qPromReversa) ≤ 1 ∧
      ∀ idx, qPromReversa.findIdx? (fun p => decide (p.pid = pid)) = some idx →
        ∀ j, ∀ hj : j < qPromReversa.length, qPromReversa[j].pid ≠ pid →
          qPromReversa[j].estado = Estado.ejecutando →
          (actualizarProceso pid c qPromReversa)[j]?
            = some { qPromReversa[j] with estado := Estado.listo } :=
  C1_a_lo_mas_uno_ejecutando qPromReversa (by decide)

/-- C8: a tick never increases the remaining time of a record that starts
non-negative, it preserves `0 ≤ tiempo_restante ≤ tiempo_total` queue-wide,
and the active record's remaining time becomes `max 0 (r - 1)` — a decrement
by exactly one unless it is already `0`. -/
theorem C8_tiempo_restante (q : List Process) :
    (∀ p' ∈ simularPasoQuantum q, ∃ p ∈ q, p.pid = p'.pid ∧
      (0 ≤ p.tiempo_restante → p'.tiempo_restante ≤ p.tiempo_restante)) ∧
    ((∀ p ∈ q, 0 ≤ p.tiempo_restante ∧ p.tiempo_restante ≤ (p.tiempo_total : Int)) →
      ∀ p' ∈ simularPasoQuantum q,
        0 ≤ p'.tiempo_restante ∧ p'.tiempo_restante ≤ (p'.tiempo_total : Int)) ∧
    (∀ (cop : List Process) (i : Nat), ¬ q.isEmpty →
      seleccion (paso2 (paso1 q)) (tiempoActualDe q) = (cop, some i) →
      ∀ hi : i < cop.length,
        ∃ p' ∈ simularPasoQuantum q, p'.pid = cop[i].pid ∧
          p'.tiempo_restante = max 0 (cop[i].tiempo_restante - 1) ∧
          (1 ≤ cop[i].tiempo_restante →
            p'.tiempo_restante = cop[i].tiempo_restante - 1) ∧
          (cop[i].tiempo_restante = 0 → p'.tiempo_restante = 0)) := by
  refine ⟨?_, ?_, ?_⟩
  · intro p' hp'
    obtain ⟨p, hp, hclave, hrr⟩ := mem_tick q p' hp'
    refine ⟨p, hp, ((clave_eq_iff p p').mp hclave).1, fun h0 => ?_⟩
    rcases hrr with heq | hdec
    · rw [heq]
    · rw [hdec]
      exact max_le h0 (by omega)
  · intro hb p' hp'
    obtain ⟨p, hp, hclave, hrr⟩ := mem_tick q p' hp'
    obtain ⟨hb0, hbt⟩ := hb p hp
    have htot : p.tiempo_total = p'.tiempo_total :=
      ((clave_eq_iff p p').mp hclave).2.2.1
    rcases hrr with heq | hdec
    · rw [heq, ← htot]
      exact ⟨hb0, hbt⟩
    · rw [hdec, ← htot]
      refine ⟨le_max_left 0 _, ?_⟩
      exact le_trans (max_le hb0 (by omega)) hbt
  · intro cop i hne hsel hi
    by_cases hr : (ejecutar cop[i]).tiempo_restante ≤ 0
    · have hout := pasos3a8_term_out hsel hi hr
      obtain ⟨hlt, hg⟩ := List.getElem?_eq_some_iff.mp hout
      refine ⟨terminar (tiempoActualDe q + 1) (ejecutar cop[i]), ?_, rfl, rfl,
        fun h1 => max_eq_right (by omega), fun h2 => ?_⟩
      · rw [simularPasoQuantum_eq hne]
        exact hg ▸ List.getElem_mem hlt
      · show max 0 (cop[i].tiempo_restante - 1) = 0
        rw [h2]
        exact max_eq_left (by omega)
    · by_cases hs : sliceTimeDe (ejecutar cop[i]) ≤ (ejecutar cop[i]).tiempo_cpu
      · have hout := pasos3a8_susp_out hsel hi hr hs
        rw [List.getLast?_eq_getElem?] at hout
        obtain ⟨hlt, hg⟩ := List.getElem?_eq_some_iff.mp hout
        refine ⟨suspenderPorQuantum (ejecutar cop[i]), ?_, rfl, rfl,
          fun h1 => max_eq_right (by omega), fun h2 => ?_⟩
        · rw [simularPasoQuantum_eq hne]
          exact hg ▸ List.getElem_mem hlt
        · show max 0 (cop[i].tiempo_restante - 1) = 0
          rw [h2]
          exact max_eq_left (by omega)
      · have hout := pasos3a8_cont_out hsel hi hr hs
        obtain ⟨hlt, hg⟩ := List.getElem?_eq_some_iff.mp hout
        refine ⟨ejecutar cop[i], ?_, rfl, rfl,
          fun h1 => max_eq_right (by omega), fun h2 => ?_⟩
        · rw [simularPasoQuantum_eq hne]
          exact hg ▸ List.getElem_mem hlt
        · show max 0 (cop[i].tiempo_restante - 1) = 0
          rw [h2]
          exact max_eq_left (by omega)

/-- C8 witness: the remaining-time facts evaluated on a concrete queue. -/
theorem C8_witness :
    (∀ p' ∈ simularPasoQuantum qPromReversa, ∃ p ∈ qPromReversa,
      p.pid = p'.pid ∧
      (0 ≤ p.tiempo_restante → p'.tiempo_restante ≤ p.tiempo_restante)) ∧
    ((∀ p ∈ qPromReversa,
        0 ≤ p.tiempo_restante ∧ p.tiempo_restante ≤ (p.tiempo_total : Int)) →
      ∀ p' ∈ simularPasoQuantum qPromReversa,
        0 ≤ p'.tiempo_restante ∧ p'.tiempo_restante ≤ (p'.tiempo_total : Int)) ∧
    (∀ (cop : List Process) (i : Nat), ¬ qPromReversa.isEmpty →
      seleccion (paso2 (paso1 qPromReversa)) (tiempoActualDe qPromReversa)
        = (cop, some i) →
      ∀ hi : i < cop.length,
        ∃ p' ∈ simularPasoQuantum qPromReversa, p'.pid = cop[i].pid ∧
          p'.tiempo_restante = max 0 (cop[i].tiempo_restante - 1) ∧
          (1 ≤ cop[i].tiempo_restante →
            p'.tiempo_restante = cop[i].tiempo_restante - 1) ∧
          (cop[i].tiempo_restante = 0 → p'.tiempo_restante = 0)) :=
  C8_tiempo_restante qPromReversa

/-- C2 counterexample: `sS1` and `sS2` (queued in that order) are promoted in
the same tick, but land at the tail in the order `sS2`, `sS1` — the reverse
of their original relative queue order, contradicting the claim. -/
theorem C2_counterexample :
    (simularPasoQuantum qPromReversa).map Process.pid = [9, 2, 1] ∧
    (simularPasoQuantum qPromReversa).map Process.pid ≠ [9, 1, 2] := by
  constructor
  · decide
  · decide

/-- C2 (amended): each tick decrements the `interactividad` of every
suspended record that has a positive counter and leaves the rest of the
record alone; every suspended record whose counter is then `≤ 0` is removed
and appended to the tail set to `listo` — records promoted in the same tick
landing in the REVERSE of their original relative order; and a record
suspended with aging counter 4 is still suspended after 3 ticks and becomes
`listo` at the queue tail on exactly the 4th tick. -/
theorem C2_envejecimiento_promocion :
    (∀ q : List Process, ¬ q.isEmpty = true →
      simularPasoQuantum q = pasos3a8 (paso2 (paso1 q)) (tiempoActualDe q)) ∧
    (∀ (q : List Process) (i : Nat) (a : Process), q[i]? = some a →
      ((a.estado = Estado.suspendido ∧ 0 < a.interactividad) →
        (paso1 q)[i]? = some { a with interactividad := a.interactividad - 1 }) ∧
      (¬ (a.estado = Estado.suspendido ∧ 0 < a.interactividad) →
        (paso1 q)[i]? = some a)) ∧
    (∀ q : List Process, paso2 q
      = q.filter (fun p => !decide (esPromovible p))
        ++ ((q.filter fun p => decide (esPromovible p)).map aListo).reverse) ∧
    ((simularPasoQuantum (simularPasoQuantum (simularPasoQuantum
        qEnvejecimiento))).map (fun p => (p.pid, p.estado, p.interactividad))
      = [(9, Estado.ejecutando, 0), (7, Estado.suspendido, 1)] ∧
     (simularPasoQuantum (simularPasoQuantum (simularPasoQuantum
        (simularPasoQuantum qEnvejecimiento)))).map
          (fun p => (p.pid, p.estado, p.interactividad))
      = [(9, Estado.ejecutando, 0), (7, Estado.listo, 0)]) := by
  refine ⟨fun q h => simularPasoQuantum_eq h, ?_, paso2_eq, by decide, by decide⟩
  intro q i a ha
  unfold paso1
  rw [List.getElem?_map, ha]
  constructor
  · intro hc
    dsimp only [Option.map_some']
    rw [if_pos hc]
  · intro hc
    dsimp only [Option.map_some']
    rw [if_neg hc]

/-- C2 witness: the aging decrement applied to the concrete suspended record
with counter 4 (it drops to 3). -/
theorem C2_witness :
    (paso1 qEnvejecimiento)[1]?
      = some { sS7 with interactividad := sS7.interactividad - 1 } :=
  ((C2_envejecimiento_promocion.2.1 qEnvejecimiento 1 sS7 (by decide)).1
    (by decide))

/-- C3 counterexample: the solo 3-unit run.  It terminates with
`tiempo_restante = 0` three ticks after dispatch, but `t_fin = some 1` while
`t_inicio = some 0`, so `t_fin = t_inicio + 3` fails: the engine stamps
`t_fin` from the derived clock `max(iteracion + tiempo_espera) + 1`, which
does not advance when no other record is waiting. -/
theorem C3_counterexample :
    (simularPasoQuantum (simularPasoQuantum (simularPasoQuantum
      qTerminacionSolo))).map
        (fun p => (p.estado, p.tiempo_restante, p.t_inicio, p.t_fin))
      = [(Estado.terminado, 0, some 0, some 1)] ∧
    (1 : Nat) ≠ 0 + 3 := by
  constructor
  · decide
  · decide

/-- C3 (amended): when the active record's remaining time reaches 0 during a
tick, that tick sets `estado = "terminado"`, `resident = false`, clears
`tiempo_cpu`, increments `iteracion`, sets `t_fin` only if unset (from the
derived clock plus one), and leaves `tiempo_restante = 0`; and in the
two-process scenario — where the waiting companion keeps the derived clock
advancing — the 3-unit process dispatched at clock 0 is still running after
2 ticks and terminates on the 3rd with `t_fin = some 3 = t_inicio + 3`. -/
theorem C3_terminacion :
    (∀ (q cop : List Process) (i : Nat), ¬ q.isEmpty = true →
      seleccion (paso2 (paso1 q)) (tiempoActualDe q) = (cop, some i) →
      ∀ hi : i < cop.length, (ejecutar cop[i]).tiempo_restante ≤ 0 →
        (simularPasoQuantum q)[i]?
          = some (terminar (tiempoActualDe q + 1) (ejecutar cop[i])) ∧
        (terminar (tiempoActualDe q + 1) (ejecutar cop[i])).estado
          = Estado.terminado ∧
        (terminar (tiempoActualDe q + 1) (ejecutar cop[i])).resident
          = some false ∧
        (terminar (tiempoActualDe q + 1) (ejecutar cop[i])).tiempo_cpu = 0 ∧
        (terminar (tiempoActualDe q + 1) (ejecutar cop[i])).iteracion
          = cop[i].iteracion + 1 ∧
        (terminar (tiempoActualDe q + 1) (ejecutar cop[i])).t_fin
          = some (cop[i].t_fin.getD (tiempoActualDe q + 1)) ∧
        (terminar (tiempoActualDe q + 1) (ejecutar cop[i])).tiempo_restante
          = 0) ∧
    ((simularPasoQuantum (simularPasoQuantum qTerminacionDuo)).map
        (fun p => (p.pid, p.estado, p.tiempo_restante))
      = [(1, Estado.ejecutando, 1), (2, Estado.listo, 100)] ∧
     (simularPasoQuantum (simularPasoQuantum (simularPasoQuantum
        qTerminacionDuo))).map
        (fun p => (p.pid, p.estado, p.tiempo_restante, p.t_inicio, p.t_fin))
      = [(1, Estado.terminado, 0, some 0, some 3),
         (2, Estado.ejecutando, 100, some 3, none)] ∧
     (3 : Nat) = 0 + 3) := by
  constructor
  · intro q cop i hne hsel hi hr
    refine ⟨?_, rfl, rfl, rfl, rfl, rfl, ?_⟩
    · rw [simularPasoQuantum_eq hne]
      exact pasos3a8_term_out hsel hi hr
    · exact le_antisymm hr (le_max_left 0 _)
  · refine ⟨by decide, by decide, by decide⟩

/-- C3 witness: the termination effects applied on the concrete queue `qd3`
(the two-process scenario two ticks in). -/
theorem C3_witness :
    ((simularPasoQuantum qd3)[0]?).map Process.estado
      = some Estado.terminado := by
  have h := C3_terminacion.1 qd3 (paso2 (paso1 qd3)) 0 (by decide) (by decide)
    (by decide) (by decide)
  rw [h.1]
  rfl

/-- C4: if the active record is not terminated this tick and its incremented
`tiempo_cpu` reaches `slice_time = ceil(tiempo_total / quantum)`, the tick
suspends it — `estado = "suspendido"`, `tiempo_cpu = 0`, `interactividad`
restored to `interactividad_inicial` (`?? 0`), `iteracion` incremented — and
moves it to the queue tail; with `tiempo_total = 10`, `quantum = 2`
(`slice_time = 5`) a process running uninterrupted is still running at its
4th tick and is suspended exactly at its 5th, not terminated first
(`tiempo_restante = 5 ≠ 0`). -/
theorem C4_agotamiento_rodaja :
    (∀ (q cop : List Process) (i : Nat), ¬ q.isEmpty = true →
      seleccion (paso2 (paso1 q)) (tiempoActualDe q) = (cop, some i) →
      ∀ hi : i < cop.length,
      ¬ (ejecutar cop[i]).tiempo_restante ≤ 0 →
      sliceTimeDe (ejecutar cop[i]) ≤ (ejecutar cop[i]).tiempo_cpu →
        (simularPasoQuantum q).getLast?
          = some (suspenderPorQuantum (ejecutar cop[i])) ∧
        (suspenderPorQuantum (ejecutar cop[i])).estado = Estado.suspendido ∧
        (suspenderPorQuantum (ejecutar cop[i])).tiempo_cpu = 0 ∧
        (suspenderPorQuantum (ejecutar cop[i])).iteracion
          = cop[i].iteracion + 1 ∧
        (suspenderPorQuantum (ejecutar cop[i])).interactividad
          = cop[i].interactividad_inicial.getD 0 ∧
        ∀ v, cop[i].interactividad_inicial = some v →
          (suspenderPorQuantum (ejecutar cop[i])).interactividad = v) ∧
    (sliceTimeDe pRodaja = 5 ∧
     (simularPasoQuantum qRodaja).map (fun p => (p.estado, p.tiempo_cpu))
       = [(Estado.ejecutando, 1)] ∧
     (simularPasoQuantum^[2] qRodaja).map (fun p => (p.estado, p.tiempo_cpu))
       = [(Estado.ejecutando, 2)] ∧
     (simularPasoQuantum^[3] qRodaja).map (fun p => (p.estado, p.tiempo_cpu))
       = [(Estado.ejecutando, 3)] ∧
     (simularPasoQuantum^[4] qRodaja).map (fun p => (p.estado, p.tiempo_cpu))
       = [(Estado.ejecutando, 4)] ∧
     (simularPasoQuantum^[5] qRodaja).map
        (fun p => (p.estado, p.tiempo_cpu, p.tiempo_restante,
                   p.interactividad, p.iteracion))
       = [(Estado.suspendido, 0, 5, 0, 1)]) := by
  constructor
  · intro q cop i hne hsel hi hr hs
    refine ⟨?_, rfl, rfl, rfl, rfl, ?_⟩
    · rw [simularPasoQuantum_eq hne]
      exact pasos3a8_susp_out hsel hi hr hs
    · intro v hv
      show cop[i].interactividad_inicial.getD 0 = v
      rw [hv]
      rfl
  · refine ⟨by decide, by decide, by decide, by decide, by decide, by decide⟩

/-- C4 witness: the suspension effects applied on the concrete queue `q4R`
(the 10/2 scenario four ticks in). -/
theorem C4_witness :
    ((simularPasoQuantum q4R).getLast?).map Process.estado
      = some Estado.suspendido := by
  have h := C4_agotamiento_rodaja.1 q4R (paso2 (paso1 q4R)) 0 (by decide)
    (by decide) (by decide) (by decide) (by decide)
  rw [h.1]
  rfl

/-- C5 counterexample: starting leaves an `inactivo` record `inactivo` (the
claim says every record outside terminado/suspendido becomes `listo`) and
sets the first ready record to `ejecutando`, and stopping changes no record
at all (the claim says non-terminated records are forced to `inactivo`). -/
theorem C5_counterexample :
    ((iniciarProcesos qInactivoListo).map fun p => (p.pid, p.estado))
      = [(1, Estado.inactivo), (2, Estado.ejecutando)] ∧
    Estado.inactivo ≠ Estado.listo ∧
    detenerProcesos qSoloListo = qSoloListo ∧
    (qSoloListo.map fun p => p.estado) = [Estado.listo] ∧
    Estado.listo ≠ Estado.inactivo := by
  refine ⟨by decide, by decide, rfl, by decide, by decide⟩

/-- C5 (amended): toggling to stopped changes no record (only the interval
stops); toggling to running is the identity when a record is already running
or none is ready, and otherwise sorts the queue by ascending pid and sets
exactly the first ready record of the sorted queue to `ejecutando` (with
`t_inicio ?? 0`), leaving every other record's fields — including the
estados of `inactivo` records — unchanged. -/
theorem C5_alternar_ejecucion :
    (∀ q : List Process, detenerProcesos q = q) ∧
    (∀ q : List Process,
      q.any (fun p => decide (p.estado = Estado.ejecutando)) = true →
      iniciarProcesos q = q) ∧
    (∀ q : List Process,
      (q.filter fun p => decide (p.estado = Estado.listo)).isEmpty = true →
      iniciarProcesos q = q) ∧
    (∀ (q : List Process) (i : Nat),
      ¬ q.any (fun p => decide (p.estado = Estado.ejecutando)) = true →
      ¬ (q.filter fun p => decide (p.estado = Estado.listo)).isEmpty = true →
      (sortByPid q).findIdx? (fun p => decide (p.estado = Estado.listo))
        = some i →
      ∀ hi : i < (sortByPid q).length,
        (iniciarProcesos q)[i]?
          = some { (sortByPid q)[i] with
                   estado := Estado.ejecutando,
                   t_inicio := some ((sortByPid q)[i].t_inicio.getD 0) } ∧
        ∀ j, j ≠ i → (iniciarProcesos q)[j]? = (sortByPid q)[j]?) := by
  refine ⟨fun q => rfl, ?_, ?_, ?_⟩
  · intro q h
    unfold iniciarProcesos
    rw [if_pos h]
  · intro q h
    unfold iniciarProcesos
    by_cases h1 : q.any (fun p => decide (p.estado = Estado.ejecutando)) = true
    · rw [if_pos h1]
    · rw [if_neg h1, if_pos h]
  · intro q i hany hfil hfind hi
    unfold iniciarProcesos
    rw [if_neg hany, if_neg hfil]
    dsimp only
    rw [hfind]
    dsimp only
    constructor
    · rw [getElem?_mapIdx, List.getElem?_eq_getElem hi]
      dsimp only [Option.map_some']
      rw [if_pos rfl]
    · intro j hj
      rw [getElem?_mapIdx]
      cases hg : (sortByPid q)[j]? with
      | none => rfl
      | some x =>
        dsimp only [Option.map_some']
        rw [if_neg hj]

/-- C5 witness: starting the concrete inactive+ready queue dispatches the
ready record at position 1 of the pid-sorted queue and leaves position 0
(the inactive record) untouched. -/
theorem C5_witness :
    ((iniciarProcesos qInactivoListo)[1]?).map Process.estado
      = some Estado.ejecutando ∧
    (iniciarProcesos qInactivoListo)[0]? = (sortByPid qInactivoListo)[0]? := by
  have h := C5_alternar_ejecucion.2.2.2 qInactivoListo 1 (by decide)
    (by decide) (by decide) (by decide)
  exact ⟨by rw [h.1]; rfl, h.2 0 (by decide)⟩

/-- C6 counterexample: in the FIFO fairness scenario the slice time is
`ceil(4/4) = 1`, not 4, and A is preempted (suspended with
`tiempo_restante = 3`) on its very first tick instead of running to
completion sequentially. -/
theorem C6_counterexample :
    sliceTimeDe pA = 1 ∧ (1 : Nat) ≠ 4 ∧
    ((simularPasoQuantum (iniciarProcesos qFIFO)).map
        fun p => (p.pid, p.estado, p.tiempo_restante))
      = [(2, Estado.ejecutando, 4), (1, Estado.suspendido, 3)] ∧
    (3 : Int) ≠ 0 := by
  refine ⟨by decide, by decide, by decide, by decide⟩

/-- C6 (amended): with A(pid 1) and B(pid 2) both ready (B queued first),
`start` dispatches A by the ascending-pid tie-break; `slice_time` is 1, so
the two processes alternate ticks rather than running sequentially, but A
still terminates first: after 7 ticks A is `terminado` with `t_fin = 7`
while B is still running, after 8 ticks B is `terminado` with `t_fin = 8`,
so the end order is A then B. -/
theorem C6_primer_despacho :
    ((iniciarProcesos qFIFO).map fun p => (p.pid, p.estado))
      = [(1, Estado.ejecutando), (2, Estado.listo)] ∧
    (simularPasoQuantum^[7] (iniciarProcesos qFIFO)).map
        (fun p => (p.pid, p.estado, p.t_fin))
      = [(1, Estado.terminado, some 7), (2, Estado.ejecutando, none)] ∧
    (simularPasoQuantum^[8] (iniciarProcesos qFIFO)).map
        (fun p => (p.pid, p.estado, p.t_fin))
      = [(1, Estado.terminado, some 7), (2, Estado.terminado, some 8)] ∧
    (7 : Nat) < 8 := by
  refine ⟨by decide, by decide, by decide, by decide⟩
